import Mathlib

/-!
Shallow embedding of the dust-classification and skeleton-construction core of
`dustbuster` (`src/transaction.rs`), with the two pieces of external-library
behaviour the core delegates to (`Script::minimal_non_dust_custom` and
`Psbt::from_unsigned_tx`) modelled from the specification.
-/

namespace DustBuster

/-- Modelled from the spec: the shape of an output's spending script, which
determines the cost of spending it in the future (§3 of the spec). The byte
script of the source is abstracted to its recognised shape. -/
inductive ScriptType where
  | legacyPkh
  | wrappedWitness
  | witnessPkh
  | witnessSh
  | taproot
  | nonStandard
deriving DecidableEq, Repr

/-- Modelled from the spec: the script-type-specific future input vsize table
of §3 (legacy public-key-hash ≈148, script-hash-wrapped witness ≈91, native
witness public-key-hash ≈68, native witness script-hash/taproot ≈57–58;
unknown shapes default to the largest, legacy, cost). -/
def future_input_vsize : ScriptType → Nat
  | .legacyPkh => 148
  | .wrappedWitness => 91
  | .witnessPkh => 68
  | .witnessSh => 58
  | .taproot => 57
  | .nonStandard => 148

/-- Modelled from the spec: the dust-threshold formula the source delegates to
the external bitcoin library (`Script::minimal_non_dust_custom`, called at
`src/transaction.rs:38`): `fee_rate × future_input_vsize(spending_script)`,
in satoshis, for a fee rate in satoshis per virtual byte. -/
def minimal_non_dust_custom (script : ScriptType) (fee_rate : Nat) : Nat :=
  fee_rate * future_input_vsize script

/-- One wallet output record (`ListUnspentResultEntry` of the RPC layer, as
used by `src/transaction.rs`): `txid` is the 32-byte transaction id (modelled
as a number), `vout` the output index, `amount` the value in satoshis,
`script_pub_key` the spending script (abstracted to its shape) and `address`
the optional derived owning address (already in canonical string form). -/
structure ListUnspentResultEntry where
  txid : Nat
  vout : Nat
  amount : Nat
  script_pub_key : ScriptType
  address : Option String
deriving DecidableEq, Repr

/-- Appends `u` to the group of key `a`, creating the group if absent: the
embedding of `addresses.entry(address).or_default().push(utxo.clone())` at
`src/transaction.rs:123`, on an insertion-ordered association list standing
for the `HashMap`. -/
def insertUtxo (m : List (String × List ListUnspentResultEntry)) (a : String)
    (u : ListUnspentResultEntry) : List (String × List ListUnspentResultEntry) :=
  match m with
  | [] => [(a, [u])]
  | (b, g) :: rest =>
      if b = a then (b, g ++ [u]) :: rest else (b, g) :: insertUtxo rest a u

/-- One step of the grouping loop of `get_utxos_by_address`
(`src/transaction.rs:121-125`): a record with no derivable address is skipped,
any other is appended to its address's group. -/
def stepGroup (m : List (String × List ListUnspentResultEntry))
    (utxo : ListUnspentResultEntry) : List (String × List ListUnspentResultEntry) :=
  match utxo.address with
  | some a => insertUtxo m a utxo
  | none => m

/-- The Address Grouper (`get_utxos_by_address`, `src/transaction.rs:118-128`):
groups the records by owning address, preserving per-group input order. -/
def get_utxos_by_address (utxos : List ListUnspentResultEntry) :
    List (String × List ListUnspentResultEntry) :=
  utxos.foldl stepGroup []

/-- Key lookup in the association list standing for the `HashMap`
(`HashMap::get` at `src/transaction.rs:34`). -/
def lookupGroup (a : String) :
    List (String × List ListUnspentResultEntry) → Option (List ListUnspentResultEntry)
  | [] => none
  | (b, g) :: rest => if a = b then some g else lookupGroup a rest

/-- The dust filter of `get_dust_utxos` (`src/transaction.rs:36-42`): keep a
record iff its threshold `min_amount` is strictly above its amount. -/
def dust_amount_filter (min_relay_fee : Nat)
    (utxos : List ListUnspentResultEntry) : List ListUnspentResultEntry :=
  utxos.filter fun utxo =>
    let min_amount := minimal_non_dust_custom utxo.script_pub_key min_relay_fee
    decide (min_amount > utxo.amount)

/-- The Dust Classifier (`get_dust_utxos`, `src/transaction.rs:27-44`). The
source returns `Result` but never constructs an `Err`: `some` models the `Ok`
result, and `none` models the panic of
`utxos_by_address.get(filter_address).unwrap()` (`src/transaction.rs:34`)
when the address filter matches no group. -/
def get_dust_utxos (utxos : List ListUnspentResultEntry) (min_relay_fee : Nat)
    (address : Option String) : Option (List ListUnspentResultEntry) :=
  match address with
  | none => some (dust_amount_filter min_relay_fee utxos)
  | some filter_address =>
      match lookupGroup filter_address (get_utxos_by_address utxos) with
      | none => none
      | some filtered_utxos => some (dust_amount_filter min_relay_fee filtered_utxos)

/-- Outpoint of a transaction input: the `(txid, vout)` pair. -/
structure OutPoint where
  txid : Nat
  vout : Nat
deriving DecidableEq, Repr

/-- Transaction input, with scripts and witness items as byte lists. -/
structure TxIn where
  previous_output : OutPoint
  script_sig : List Nat
  sequence : Nat
  witness : List (List Nat)
deriving DecidableEq, Repr

/-- Transaction output: value in satoshis and script bytes. -/
structure TxOut where
  value : Nat
  script_pubkey : List Nat
deriving DecidableEq, Repr

/-- Unsigned transaction skeleton. -/
structure Transaction where
  version : Int
  lock_time : Nat
  input : List TxIn
  output : List TxOut
deriving DecidableEq, Repr

/-- PSBT carrying only its unsigned transaction: the source attaches no signing
material (`Psbt::from_unsigned_tx` leaves per-input/per-output maps empty). -/
structure Psbt where
  unsigned_tx : Transaction
deriving DecidableEq, Repr

/-- Error kind of PSBT construction. -/
inductive PsbtError where
  | constructionError
deriving DecidableEq, Repr

/-- Modelled from the spec: `Psbt::from_unsigned_tx` of the external bitcoin
library (called at `src/transaction.rs:102`), which per §4.3 validates basic
transaction well-formedness and fails with a construction error if the
underlying transaction has zero inputs. -/
def Psbt.from_unsigned_tx (tx : Transaction) : Except PsbtError Psbt :=
  if tx.input.isEmpty then .error .constructionError else .ok ⟨tx⟩

/-- `create_op_return_output_script` (`src/transaction.rs:54-58`): the single
OP_RETURN opcode byte. -/
def create_op_return_output_script : List Nat := [0x6a]

/-- The Skeleton Builder (`create_dust_psbt`, `src/transaction.rs:78-103`):
one input per taken record (empty script_sig, sequence `0xFFFFFFFD`, empty
witness), one zero-value OP_RETURN output, version 2, locktime 0. -/
def create_dust_psbt (utxos : List ListUnspentResultEntry) (utxo_count : Nat) :
    Except PsbtError Psbt :=
  let inputs : List TxIn := (utxos.take utxo_count).map fun utxo =>
    ⟨⟨utxo.txid, utxo.vout⟩, [], 0xFFFFFFFD, []⟩
  let tx_out : TxOut := ⟨0, create_op_return_output_script⟩
  let outputs : List TxOut := [tx_out]
  let unsigned_tx : Transaction := ⟨2, 0, inputs, outputs⟩
  Psbt.from_unsigned_tx unsigned_tx

/-- The records of `utxos` owned by address `a`, in input order: the reference
set the grouping theorems compare the groups against. -/
def ownedBy (a : String) (utxos : List ListUnspentResultEntry) :
    List ListUnspentResultEntry :=
  utxos.filter fun u => decide (u.address = some a)

/-- Sample record used by concrete witnesses. -/
def sampleUtxo : ListUnspentResultEntry :=
  ⟨1, 0, 50, .witnessPkh, some "addr1"⟩

/-- The PSBT `create_dust_psbt [sampleUtxo] 1` evaluates to. -/
def samplePsbt : Psbt :=
  ⟨⟨2, 0, [⟨⟨1, 0⟩, [], 0xFFFFFFFD, []⟩], [⟨0, [0x6a]⟩]⟩⟩

/-- Looking a key up after `insertUtxo` finds the old group with `u` appended
under the inserted key, and is unchanged under every other key. -/
theorem lookupGroup_insertUtxo (m : List (String × List ListUnspentResultEntry)) (a c : String)
    (u : ListUnspentResultEntry) :
    lookupGroup c (insertUtxo m a u) =
      if c = a then some (((lookupGroup a m).getD []) ++ [u]) else lookupGroup c m := by
  induction m with
  | nil => simp [insertUtxo, lookupGroup]
  | cons p rest ih =>
      obtain ⟨b, g⟩ := p
      by_cases hba : b = a
      · subst hba
        by_cases hcb : c = b
        · subst hcb; simp [insertUtxo, lookupGroup]
        · simp [insertUtxo, lookupGroup, hcb]
      · by_cases hcb : c = b
        · subst hcb
          have hca : ¬ c = a := hba
          simp [insertUtxo, lookupGroup, hba, hca, Ne.symm hba]
        · simp [insertUtxo, lookupGroup, hba, hcb, Ne.symm hba, ih]

/-- Invariant of the grouping fold: the group under key `c` is the accumulated
group extended by the records of `l` owned by `c`, in order. -/
theorem lookupGroup_foldl_stepGroup (l : List ListUnspentResultEntry) (c : String) :
    ∀ m : List (String × List ListUnspentResultEntry),
      lookupGroup c (l.foldl stepGroup m) =
        match lookupGroup c m with
        | some g => some (g ++ ownedBy c l)
        | none => if ownedBy c l = [] then none else some (ownedBy c l) := by
  induction l with
  | nil =>
      intro m
      cases h : lookupGroup c m <;> simp [ownedBy, h]
  | cons u l ih =>
      intro m
      rw [List.foldl_cons, ih (stepGroup m u)]
      cases hu : u.address with
      | none =>
          have hne : ¬ u.address = some c := by rw [hu]; simp
          simp [stepGroup, hu, ownedBy, List.filter_cons, hne]
      | some a =>
          by_cases hca : c = a
          · subst hca
            have howned : u.address = some c := hu
            simp only [stepGroup, hu, lookupGroup_insertUtxo, if_pos rfl, ownedBy,
              List.filter_cons, decide_eq_true_eq, howned, if_true, ite_true]
            cases h : lookupGroup c m <;> simp [h]
          · have hne : ¬ u.address = some c := by
              rw [hu]; intro h; exact hca (Option.some.inj h).symm
            have hsac : ¬ (some a = some c) := fun h => hca (Option.some.inj h).symm
            simp only [stepGroup, hu, lookupGroup_insertUtxo, if_neg hca, ownedBy,
              List.filter_cons, decide_eq_true_eq, hne, hsac, if_false, ite_false]

/-- The Address Grouper's map, characterised through lookup: key `a` is bound
exactly when some record is owned by `a`, to the owned records in input order. -/
theorem lookupGroup_get_utxos_by_address (utxos : List ListUnspentResultEntry) (a : String) :
    lookupGroup a (get_utxos_by_address utxos) =
      if ownedBy a utxos = [] then none else some (ownedBy a utxos) := by
  have h := lookupGroup_foldl_stepGroup utxos a []
  simpa [get_utxos_by_address, lookupGroup] using h

/-- Claim C1: with no address filter, `get_dust_utxos` at fee rate `f` returns
exactly the records `o` with `o.amount < threshold(o.spending_script, f)`; no
record at or above its threshold is ever included. -/
theorem get_dust_utxos_no_filter_exact (utxos : List ListUnspentResultEntry)
    (min_relay_fee : Nat) :
    get_dust_utxos utxos min_relay_fee none =
        some (utxos.filter fun o =>
          decide (o.amount < minimal_non_dust_custom o.script_pub_key min_relay_fee)) ∧
      ∀ o, (o ∈ utxos.filter fun o =>
          decide (o.amount < minimal_non_dust_custom o.script_pub_key min_relay_fee)) ↔
        (o ∈ utxos ∧ o.amount < minimal_non_dust_custom o.script_pub_key min_relay_fee) := by
  refine ⟨rfl, ?_⟩
  intro o
  simp [List.mem_filter]

/-- Claim C10: on the no-filter path `get_dust_utxos` always returns an `Ok`
result (modelled as `some`): an empty classification is a successful empty
list, and no error or panic is reachable. -/
theorem get_dust_utxos_no_filter_total (utxos : List ListUnspentResultEntry)
    (min_relay_fee : Nat) :
    (get_dust_utxos utxos min_relay_fee none).isSome = true := rfl

/-- Claim C3: when the address filter matches no record, `get_dust_utxos` does
NOT return a typed address-not-found error: it panics (the `unwrap()` on the
missing `HashMap` key at `src/transaction.rs:34`, modelled as `none`).
Evaluated here at a concrete failing input: one record owned by `"addrY"`,
filtered by `"addrX"`. -/
theorem get_dust_utxos_missing_address_panics :
    get_dust_utxos [⟨7, 0, 10, .witnessPkh, some "addrY"⟩] 1 (some "addrX") = none := by
  rfl

/-- Claim C6: for a fixed script type the dust threshold is monotonically
non-decreasing in the fee rate. -/
theorem minimal_non_dust_custom_mono (script : ScriptType) (f1 f2 : Nat) (h : f1 ≤ f2) :
    minimal_non_dust_custom script f1 ≤ minimal_non_dust_custom script f2 :=
  Nat.mul_le_mul_right (future_input_vsize script) h

/-- Witness for the monotonicity of the dust threshold, at fee rates 1 ≤ 2 on
a native witness public-key-hash script. -/
theorem minimal_non_dust_custom_mono_witness :
    (1 : Nat) ≤ 2 ∧
      minimal_non_dust_custom ScriptType.witnessPkh 1 ≤
        minimal_non_dust_custom ScriptType.witnessPkh 2 :=
  ⟨by decide, minimal_non_dust_custom_mono ScriptType.witnessPkh 1 2 (by decide)⟩

/-- Claim C9: the Address Grouper maps each address to exactly the records
owned by it, in input order (`ownedBy` is an order-preserving filter), binds no
key whose owned set is empty — in particular records with no derivable address
appear in no group — and is a total function (it never fails). -/
theorem get_utxos_by_address_groups (utxos : List ListUnspentResultEntry) (a : String) :
    lookupGroup a (get_utxos_by_address utxos) =
      if ownedBy a utxos = [] then none else some (ownedBy a utxos) :=
  lookupGroup_get_utxos_by_address utxos a

/-- Claim C2: every PSBT produced by `create_dust_psbt` spends the first
`min(utxo_count, len(utxos))` records in arrival order as its inputs and has
exactly one output, of value 0 with the OP_RETURN script, whatever
`utxo_count` is. -/
theorem create_dust_psbt_counts (utxos : List ListUnspentResultEntry) (utxo_count : Nat)
    (psbt : Psbt) (h : create_dust_psbt utxos utxo_count = .ok psbt) :
    psbt.unsigned_tx.input =
        ((utxos.take utxo_count).map fun u =>
          (⟨⟨u.txid, u.vout⟩, [], 0xFFFFFFFD, []⟩ : TxIn)) ∧
      psbt.unsigned_tx.input.length = min utxo_count utxos.length ∧
      psbt.unsigned_tx.output = [⟨0, create_op_return_output_script⟩] ∧
      psbt.unsigned_tx.output.length = 1 := by
  simp only [create_dust_psbt, Psbt.from_unsigned_tx] at h
  split at h
  · cases h
  · cases h
    refine ⟨rfl, ?_, rfl, rfl⟩
    simp [List.length_take]

/-- Witness for the input/output shape of `create_dust_psbt`, at the
one-record list `[sampleUtxo]` with `utxo_count = 1`. -/
theorem create_dust_psbt_counts_witness :
    create_dust_psbt [sampleUtxo] 1 = .ok samplePsbt ∧
      (samplePsbt.unsigned_tx.input =
          ((List.take 1 [sampleUtxo]).map fun u =>
            (⟨⟨u.txid, u.vout⟩, [], 0xFFFFFFFD, []⟩ : TxIn)) ∧
        samplePsbt.unsigned_tx.input.length = min 1 [sampleUtxo].length ∧
        samplePsbt.unsigned_tx.output = [⟨0, create_op_return_output_script⟩] ∧
        samplePsbt.unsigned_tx.output.length = 1) :=
  ⟨rfl, create_dust_psbt_counts [sampleUtxo] 1 samplePsbt rfl⟩

/-- Claim C5: every skeleton produced by `create_dust_psbt` has version 2,
locktime 0, every input carrying a selected record's `(txid, vout)` outpoint
with empty unlocking script, empty witness and sequence `0xFFFFFFFD`, and its
output script is the single byte `0x6a`. -/
theorem create_dust_psbt_skeleton_fields (utxos : List ListUnspentResultEntry)
    (utxo_count : Nat) (psbt : Psbt) (h : create_dust_psbt utxos utxo_count = .ok psbt) :
    psbt.unsigned_tx.version = 2 ∧
      psbt.unsigned_tx.lock_time = 0 ∧
      (∀ txin ∈ psbt.unsigned_tx.input,
        ∃ u ∈ utxos.take utxo_count,
          txin.previous_output = ⟨u.txid, u.vout⟩ ∧ txin.script_sig = [] ∧
            txin.witness = [] ∧ txin.sequence = 0xFFFFFFFD) ∧
      ∀ txout ∈ psbt.unsigned_tx.output, txout.script_pubkey = [0x6a] := by
  simp only [create_dust_psbt, Psbt.from_unsigned_tx] at h
  split at h
  · cases h
  · cases h
    refine ⟨rfl, rfl, ?_, ?_⟩
    · intro txin htxin
      simp only [List.mem_map] at htxin
      obtain ⟨u, hu, rfl⟩ := htxin
      exact ⟨u, hu, rfl, rfl, rfl, rfl⟩
    · intro txout htxout
      simp only [List.mem_singleton] at htxout
      subst htxout
      rfl

/-- Witness for the skeleton-field theorem, at `[sampleUtxo]` with
`utxo_count = 1`. -/
theorem create_dust_psbt_skeleton_fields_witness :
    create_dust_psbt [sampleUtxo] 1 = .ok samplePsbt ∧
      (samplePsbt.unsigned_tx.version = 2 ∧
        samplePsbt.unsigned_tx.lock_time = 0 ∧
        (∀ txin ∈ samplePsbt.unsigned_tx.input,
          ∃ u ∈ List.take 1 [sampleUtxo],
            txin.previous_output = ⟨u.txid, u.vout⟩ ∧ txin.script_sig = [] ∧
              txin.witness = [] ∧ txin.sequence = 0xFFFFFFFD) ∧
        ∀ txout ∈ samplePsbt.unsigned_tx.output, txout.script_pubkey = [0x6a]) :=
  ⟨rfl, create_dust_psbt_skeleton_fields [sampleUtxo] 1 samplePsbt rfl⟩

/-- Claim C4: on an empty record list `create_dust_psbt` returns the
construction error (the underlying transaction would have zero inputs); it
never returns a zero-input skeleton. -/
theorem create_dust_psbt_empty_error (utxo_count : Nat) (_h : 1 ≤ utxo_count) :
    create_dust_psbt [] utxo_count = .error PsbtError.constructionError := by
  simp [create_dust_psbt, Psbt.from_unsigned_tx]

/-- Witness for the empty-list construction error, at `utxo_count = 1`. -/
theorem create_dust_psbt_empty_error_witness :
    (1 : Nat) ≤ 1 ∧ create_dust_psbt [] 1 = .error PsbtError.constructionError :=
  ⟨by decide, create_dust_psbt_empty_error 1 (by decide)⟩

/-- Claim C7: when the Address Grouper has a group `g` for the filter address,
`get_dust_utxos` with that filter returns the dust filter applied to `g`
alone — so every returned record belongs to `g`, and only records of `g` are
examined. -/
theorem get_dust_utxos_filter_within_group (utxos : List ListUnspentResultEntry)
    (min_relay_fee : Nat) (a : String) (g : List ListUnspentResultEntry)
    (h : lookupGroup a (get_utxos_by_address utxos) = some g) :
    get_dust_utxos utxos min_relay_fee (some a) =
        some (dust_amount_filter min_relay_fee g) ∧
      ∀ o ∈ dust_amount_filter min_relay_fee g, o ∈ g := by
  refine ⟨?_, ?_⟩
  · simp [get_dust_utxos, h]
  · intro o ho
    simp only [dust_amount_filter] at ho
    exact List.mem_of_mem_filter ho

/-- Witness for the group-restriction theorem, at the one-record list
`[sampleUtxo]` filtered by its own address `"addr1"`. -/
theorem get_dust_utxos_filter_within_group_witness :
    lookupGroup "addr1" (get_utxos_by_address [sampleUtxo]) = some [sampleUtxo] ∧
      (get_dust_utxos [sampleUtxo] 1 (some "addr1") =
          some (dust_amount_filter 1 [sampleUtxo]) ∧
        ∀ o ∈ dust_amount_filter 1 [sampleUtxo], o ∈ [sampleUtxo]) :=
  ⟨rfl, get_dust_utxos_filter_within_group [sampleUtxo] 1 "addr1" [sampleUtxo] rfl⟩

/-- Claim C8: every list the Dust Classifier returns is a sublist of the input
list — the relative order of the input is preserved and no reordering by
amount or age occurs. -/
theorem get_dust_utxos_sublist (utxos : List ListUnspentResultEntry)
    (min_relay_fee : Nat) (address : Option String) (l : List ListUnspentResultEntry)
    (h : get_dust_utxos utxos min_relay_fee address = some l) :
    l.Sublist utxos := by
  cases address with
  | none =>
      simp only [get_dust_utxos, Option.some.injEq] at h
      subst h
      exact List.filter_sublist utxos
  | some a =>
      simp only [get_dust_utxos] at h
      cases hg : lookupGroup a (get_utxos_by_address utxos) with
      | none => rw [hg] at h; cases h
      | some g =>
          rw [hg] at h
          simp only [Option.some.injEq] at h
          subst h
          have hchar := lookupGroup_get_utxos_by_address utxos a
          rw [hg] at hchar
          by_cases hown : ownedBy a utxos = []
          · rw [if_pos hown] at hchar; cases hchar
          · rw [if_neg hown] at hchar
            obtain rfl := Option.some.inj hchar
            have h1 : (dust_amount_filter min_relay_fee (ownedBy a utxos)).Sublist
                (ownedBy a utxos) := List.filter_sublist (ownedBy a utxos)
            have h2 : (ownedBy a utxos).Sublist utxos := List.filter_sublist utxos
            exact h1.trans h2

/-- Witness for order preservation, at the one-record list `[sampleUtxo]`
with no address filter (the 50-satoshi record is dust at fee rate 1). -/
theorem get_dust_utxos_sublist_witness :
    get_dust_utxos [sampleUtxo] 1 none = some [sampleUtxo] ∧
      List.Sublist [sampleUtxo] [sampleUtxo] :=
  ⟨rfl, get_dust_utxos_sublist [sampleUtxo] 1 none [sampleUtxo] rfl⟩

end DustBuster
